import Mathlib

/-!
Verification of the Res Arcana rules engine (`game_state.py`, `game_logic.py`):
resource pools, cost affordability and payment, the attack payment rule,
income application, victory evaluation, the draft pick-and-pass protocol,
magic-item selection order, the pass action and the first-player-token
invariant.  Definitions mirror the Python source; player ids are list
indices, dictionaries keyed by player id or card name become association
lists or functions, and a Python function that returns `False` without
raising is modelled by a `Bool` result (paired with the post-call state
where the source mutates), while a code path that raises is modelled by
`Except Unit`.
-/

namespace ResArcana

/-- A resource pool: one count per `ResourceType`
(the `resources` dict on `PlayerState` and `ControlledCard`). -/
structure Pool where
  red : Nat
  blue : Nat
  green : Nat
  black : Nat
  gold : Nat
  deriving Repr, DecidableEq

/-- Total of the non-gold resources of a pool. -/
def Pool.nonGold (p : Pool) : Nat :=
  p.red + p.blue + p.green + p.black

/-- A play/buy cost: per-type amounts plus the optional `'any'` entry
(the `cost` dict of `CardEffects`; the `'any'` key means that many units
of any non-gold type). -/
structure Cost where
  red : Nat
  blue : Nat
  green : Nat
  black : Nat
  gold : Nat
  anyAmt : Nat
  deriving Repr, DecidableEq

/-- `PlayerState.remove_resource` / `ControlledCard.remove_resource`
(game_state.py): when the removal would overdraw, refuse (`false`) and
leave the count unchanged; counts are Python ints, modelled as `Int`. -/
def remove_resource (current amount : Int) : Bool × Int :=
  if current < amount then (false, current) else (true, current - amount)

/-- The count left after `remove_resource` when the caller ignores the
success flag, as `pay_cost` and `apply_attack_payment` do (`Nat` view). -/
def removeCount (current amount : Nat) : Nat :=
  if current < amount then current else current - amount

/-- The per-type reservation loop of `can_afford_cost` (game_logic.py):
the leftover pool after reserving every named amount, or `none` when a
named amount exceeds what is available. -/
def reserveNamed (p : Pool) (c : Cost) : Option Pool :=
  if p.red < c.red then none
  else if p.blue < c.blue then none
  else if p.green < c.green then none
  else if p.black < c.black then none
  else if p.gold < c.gold then none
  else some ⟨p.red - c.red, p.blue - c.blue, p.green - c.green,
             p.black - c.black, p.gold - c.gold⟩

/-- `can_afford_cost` (game_logic.py): reserve the named amounts, then
check enough non-gold is left for the `'any'` portion. -/
def can_afford_cost (p : Pool) (c : Cost) : Bool :=
  match reserveNamed p c with
  | none => false
  | some q => decide (c.anyAmt ≤ q.nonGold)

/-- The specific-cost deduction of `pay_cost` (it calls `remove_resource`
per named type and ignores the success flag). -/
def payNamed (p : Pool) (c : Cost) : Pool :=
  ⟨removeCount p.red c.red, removeCount p.blue c.blue,
   removeCount p.green c.green, removeCount p.black c.black,
   removeCount p.gold c.gold⟩

/-- The auto-pay branch of `pay_cost`: pay the `'any'` portion greedily
across red → blue → green → black in that fixed order, each type capped
at what is held. -/
def greedyAnyPay (p : Pool) (remaining : Nat) : Pool :=
  let payR := min p.red remaining
  let rem1 := remaining - payR
  let payB := min p.blue rem1
  let rem2 := rem1 - payB
  let payG := min p.green rem2
  let rem3 := rem2 - payG
  let payK := min p.black rem3
  ⟨p.red - payR, p.blue - payB, p.green - payG, p.black - payK, p.gold⟩

/-- `pay_cost` (game_logic.py) called with no explicit split for the
`'any'` portion: it first re-checks `can_afford_cost` (returning `False`
with the pool untouched, modelled as `none`), deducts the named amounts,
then auto-pays the `'any'` portion greedily. -/
def pay_cost_auto (p : Pool) (c : Cost) : Option Pool :=
  if can_afford_cost p c then some (greedyAnyPay (payNamed p c) c.anyAmt)
  else none

theorem removeCount_of_le {current amount : Nat} (h : amount ≤ current) :
    removeCount current amount = current - amount := by
  unfold removeCount
  split <;> omega

theorem can_afford_iff (p : Pool) (c : Cost) :
    can_afford_cost p c = true ↔
      c.red ≤ p.red ∧ c.blue ≤ p.blue ∧ c.green ≤ p.green ∧
      c.black ≤ p.black ∧ c.gold ≤ p.gold ∧
      c.anyAmt ≤ (p.red - c.red) + (p.blue - c.blue) +
                 (p.green - c.green) + (p.black - c.black) := by
  unfold can_afford_cost reserveNamed
  split_ifs <;> simp [Pool.nonGold] <;> omega

/-- C1: for every player pool and every play/buy cost (per-type amounts
plus an optional `'any'` entry), if `can_afford_cost` returns true then
`pay_cost` with no explicit split succeeds, deducting exactly the named
per-type amounts and paying the `'any'` portion from non-gold resources
greedily in the fixed order red, blue, green, black. -/
theorem afford_implies_pay_auto (p : Pool) (c : Cost)
    (h : can_afford_cost p c = true) :
    ∃ q, pay_cost_auto p c = some q ∧
      q.red = p.red - c.red - min (p.red - c.red) c.anyAmt ∧
      q.blue = p.blue - c.blue -
        min (p.blue - c.blue) (c.anyAmt - min (p.red - c.red) c.anyAmt) ∧
      q.green = p.green - c.green -
        min (p.green - c.green)
          (c.anyAmt - min (p.red - c.red) c.anyAmt -
            min (p.blue - c.blue) (c.anyAmt - min (p.red - c.red) c.anyAmt)) ∧
      q.black = p.black - c.black -
        min (p.black - c.black)
          (c.anyAmt - min (p.red - c.red) c.anyAmt -
            min (p.blue - c.blue) (c.anyAmt - min (p.red - c.red) c.anyAmt) -
            min (p.green - c.green)
              (c.anyAmt - min (p.red - c.red) c.anyAmt -
                min (p.blue - c.blue)
                  (c.anyAmt - min (p.red - c.red) c.anyAmt))) ∧
      q.gold = p.gold - c.gold ∧
      q.nonGold + c.anyAmt =
        (p.red - c.red) + (p.blue - c.blue) +
        (p.green - c.green) + (p.black - c.black) := by
  obtain ⟨h1, h2, h3, h4, h5, h6⟩ := (can_afford_iff p c).1 h
  refine ⟨greedyAnyPay (payNamed p c) c.anyAmt, by rw [pay_cost_auto, if_pos h], ?_⟩
  have e : payNamed p c =
      ⟨p.red - c.red, p.blue - c.blue, p.green - c.green,
       p.black - c.black, p.gold - c.gold⟩ := by
    simp only [payNamed, removeCount_of_le h1, removeCount_of_le h2,
      removeCount_of_le h3, removeCount_of_le h4, removeCount_of_le h5]
  rw [e]
  refine ⟨rfl, rfl, rfl, rfl, rfl, ?_⟩
  have hg : (greedyAnyPay
      ⟨p.red - c.red, p.blue - c.blue, p.green - c.green,
       p.black - c.black, p.gold - c.gold⟩ c.anyAmt).nonGold =
      (p.red - c.red - min (p.red - c.red) c.anyAmt) +
      (p.blue - c.blue -
        min (p.blue - c.blue) (c.anyAmt - min (p.red - c.red) c.anyAmt)) +
      (p.green - c.green -
        min (p.green - c.green)
          (c.anyAmt - min (p.red - c.red) c.anyAmt -
            min (p.blue - c.blue) (c.anyAmt - min (p.red - c.red) c.anyAmt))) +
      (p.black - c.black -
        min (p.black - c.black)
          (c.anyAmt - min (p.red - c.red) c.anyAmt -
            min (p.blue - c.blue) (c.anyAmt - min (p.red - c.red) c.anyAmt) -
            min (p.green - c.green)
              (c.anyAmt - min (p.red - c.red) c.anyAmt -
                min (p.blue - c.blue)
                  (c.anyAmt - min (p.red - c.red) c.anyAmt)))) := rfl
  rw [hg]
  omega

/-- Witness for C1 at a concrete pool and cost. -/
theorem afford_implies_pay_auto_witness :
    can_afford_cost ⟨2, 1, 0, 0, 1⟩ ⟨1, 0, 0, 0, 1, 2⟩ = true ∧
      ∃ q, pay_cost_auto ⟨2, 1, 0, 0, 1⟩ ⟨1, 0, 0, 0, 1, 2⟩ = some q ∧
        q.gold = 0 ∧ q.nonGold = 0 := by
  refine ⟨by decide, ?_⟩
  obtain ⟨q, hq, -, -, -, -, h5, h6⟩ :=
    afford_implies_pay_auto ⟨2, 1, 0, 0, 1⟩ ⟨1, 0, 0, 0, 1, 2⟩ (by decide)
  have h5' : q.gold = 0 := h5
  have h6' : q.nonGold + 2 = 2 := h6
  exact ⟨q, hq, h5', by omega⟩

/-- `calculate_attack_payment` (game_logic.py): pay `min(green, cost)`
green; for each missing green a penalty of 2 units is paid from the other
resources greedily in the order red, blue, black, gold, each capped at
what is held.  The result records the amounts paid per type. -/
def calculate_attack_payment (p : Pool) (greenCost : Nat) : Pool :=
  let greenToPay := min p.green greenCost
  let missing := greenCost - greenToPay
  let penalty := 2 * missing
  let payR := min p.red penalty
  let payB := min p.blue (penalty - payR)
  let payK := min p.black (penalty - payR - payB)
  let payG := min p.gold (penalty - payR - payB - payK)
  ⟨payR, payB, greenToPay, payK, payG⟩

/-- Counterexample for C2: against green-cost 2, an opponent holding
0 green and 3 red pays 3 red (the 4-unit penalty capped at the 3 held),
not the 4 red the claim states. -/
theorem attack_payment_scenario_not_four :
    (calculate_attack_payment ⟨3, 0, 0, 0, 0⟩ 2).red ≠ 4 ∧
      calculate_attack_payment ⟨3, 0, 0, 0, 0⟩ 2 = ⟨3, 0, 0, 0, 0⟩ := by
  decide

/-- C2 (amended): the computed payment is `min(held green, cost)` green
plus a penalty of 2 per missing green taken greedily in the order red,
blue, black, gold, each capped at what is held and totalling
`min(2·missing, other holdings)`; in the scenario (0 green, 3 red,
green-cost 2) the opponent pays 3 red — the 4-unit penalty capped at the
3 red held. -/
theorem attack_payment_rule (p : Pool) (c : Nat) :
    (calculate_attack_payment p c).green = min p.green c ∧
    (calculate_attack_payment p c).red =
      min p.red (2 * (c - min p.green c)) ∧
    (calculate_attack_payment p c).blue =
      min p.blue (2 * (c - min p.green c) -
        min p.red (2 * (c - min p.green c))) ∧
    (calculate_attack_payment p c).black =
      min p.black (2 * (c - min p.green c) -
        min p.red (2 * (c - min p.green c)) -
        min p.blue (2 * (c - min p.green c) -
          min p.red (2 * (c - min p.green c)))) ∧
    (calculate_attack_payment p c).red + (calculate_attack_payment p c).blue +
      (calculate_attack_payment p c).black + (calculate_attack_payment p c).gold =
      min (2 * (c - min p.green c)) (p.red + p.blue + p.black + p.gold) ∧
    calculate_attack_payment ⟨3, 0, 0, 0, 0⟩ 2 = ⟨3, 0, 0, 0, 0⟩ := by
  refine ⟨rfl, rfl, rfl, rfl, ?_, by decide⟩
  have hr : (calculate_attack_payment p c).red =
      min p.red (2 * (c - min p.green c)) := rfl
  have hb : (calculate_attack_payment p c).blue =
      min p.blue (2 * (c - min p.green c) -
        min p.red (2 * (c - min p.green c))) := rfl
  have hk : (calculate_attack_payment p c).black =
      min p.black (2 * (c - min p.green c) -
        min p.red (2 * (c - min p.green c)) -
        min p.blue (2 * (c - min p.green c) -
          min p.red (2 * (c - min p.green c)))) := rfl
  have hg : (calculate_attack_payment p c).gold =
      min p.gold (2 * (c - min p.green c) -
        min p.red (2 * (c - min p.green c)) -
        min p.blue (2 * (c - min p.green c) -
          min p.red (2 * (c - min p.green c))) -
        min p.black (2 * (c - min p.green c) -
          min p.red (2 * (c - min p.green c)) -
          min p.blue (2 * (c - min p.green c) -
            min p.red (2 * (c - min p.green c))))) := rfl
  rw [hr, hb, hk, hg]
  omega

theorem attack_payment_caps (p : Pool) (c : Nat) :
    (calculate_attack_payment p c).red ≤ p.red ∧
    (calculate_attack_payment p c).blue ≤ p.blue ∧
    (calculate_attack_payment p c).green ≤ p.green ∧
    (calculate_attack_payment p c).black ≤ p.black ∧
    (calculate_attack_payment p c).gold ≤ p.gold := by
  have h1 : (calculate_attack_payment p c).green = min p.green c := rfl
  have h2 : (calculate_attack_payment p c).red =
      min p.red (2 * (c - min p.green c)) := rfl
  have h3 : (calculate_attack_payment p c).blue =
      min p.blue (2 * (c - min p.green c) -
        min p.red (2 * (c - min p.green c))) := rfl
  have h4 : (calculate_attack_payment p c).black =
      min p.black (2 * (c - min p.green c) -
        min p.red (2 * (c - min p.green c)) -
        min p.blue (2 * (c - min p.green c) -
          min p.red (2 * (c - min p.green c)))) := rfl
  have h5 : (calculate_attack_payment p c).gold =
      min p.gold (2 * (c - min p.green c) -
        min p.red (2 * (c - min p.green c)) -
        min p.blue (2 * (c - min p.green c) -
          min p.red (2 * (c - min p.green c))) -
        min p.black (2 * (c - min p.green c) -
          min p.red (2 * (c - min p.green c)) -
          min p.blue (2 * (c - min p.green c) -
            min p.red (2 * (c - min p.green c))))) := rfl
  refine ⟨?_, ?_, ?_, ?_, ?_⟩ <;> simp only [h1, h2, h3, h4, h5] <;> omega

/-- `apply_attack_payment` (game_logic.py): remove each paid amount from
the defender's pool (via `remove_resource`, flag ignored). -/
def apply_attack_payment (p payment : Pool) : Pool :=
  ⟨removeCount p.red payment.red, removeCount p.blue payment.blue,
   removeCount p.green payment.green, removeCount p.black payment.black,
   removeCount p.gold payment.gold⟩

/-- C10: removals that would overdraw are refused with the count left
unchanged; a non-negative count stays non-negative under
`remove_resource`; and every component of an attack payment is capped at
what the defender holds, so applying it never overdraws either. -/
theorem resources_stay_nonneg :
    (∀ current amount : Int, current < amount →
      remove_resource current amount = (false, current)) ∧
    (∀ current amount : Int, 0 ≤ current → 0 ≤ amount →
      0 ≤ (remove_resource current amount).2) ∧
    (∀ (p : Pool) (c : Nat),
      (calculate_attack_payment p c).red ≤ p.red ∧
      (calculate_attack_payment p c).blue ≤ p.blue ∧
      (calculate_attack_payment p c).green ≤ p.green ∧
      (calculate_attack_payment p c).black ≤ p.black ∧
      (calculate_attack_payment p c).gold ≤ p.gold) ∧
    (∀ (p : Pool) (c : Nat),
      apply_attack_payment p (calculate_attack_payment p c) =
        ⟨p.red - (calculate_attack_payment p c).red,
         p.blue - (calculate_attack_payment p c).blue,
         p.green - (calculate_attack_payment p c).green,
         p.black - (calculate_attack_payment p c).black,
         p.gold - (calculate_attack_payment p c).gold⟩) := by
  refine ⟨?_, ?_, ?_, ?_⟩
  · intro current amount h
    simp [remove_resource, h]
  · intro current amount h1 h2
    simp only [remove_resource]
    split <;> simp <;> omega
  · intro p c
    exact attack_payment_caps p c
  · intro p c
    obtain ⟨c1, c2, c3, c4, c5⟩ := attack_payment_caps p c
    simp only [apply_attack_payment, removeCount_of_le c1, removeCount_of_le c2,
      removeCount_of_le c3, removeCount_of_le c4, removeCount_of_le c5]

/-- Witness for C10 at concrete counts and a concrete pool. -/
theorem resources_stay_nonneg_witness :
    remove_resource 2 5 = (false, 2) ∧
      0 ≤ (remove_resource 7 4).2 ∧
      (calculate_attack_payment ⟨3, 1, 0, 2, 1⟩ 2).red ≤ 3 := by
  exact ⟨resources_stay_nonneg.1 2 5 (by decide),
    resources_stay_nonneg.2.1 7 4 (by decide) (by decide),
    (resources_stay_nonneg.2.2.1 ⟨3, 1, 0, 2, 1⟩ 2).1⟩

/-- `ResourceType` (game_state.py). -/
inductive ResT
  | red
  | blue
  | green
  | black
  | gold
  deriving Repr, DecidableEq, BEq

/-- The empty pool. -/
def Pool.zero : Pool := ⟨0, 0, 0, 0, 0⟩

/-- `add_resource` for one type. -/
def Pool.addType (p : Pool) (t : ResT) (n : Nat) : Pool :=
  match t with
  | .red => { p with red := p.red + n }
  | .blue => { p with blue := p.blue + n }
  | .green => { p with green := p.green + n }
  | .black => { p with black := p.black + n }
  | .gold => { p with gold := p.gold + n }

/-- Add every count of `q` to `p` (moving a card's whole store). -/
def Pool.addAll (p q : Pool) : Pool :=
  ⟨p.red + q.red, p.blue + q.blue, p.green + q.green,
   p.black + q.black, p.gold + q.gold⟩

/-- `IncomeEffect` (game_state.py): fixed bundle or choice bundle, with
the `conditional` and `add_to_card` modifier flags. -/
structure IncomeEffect where
  resources : Option Pool
  count : Nat
  types : List ResT
  conditional : Bool
  add_to_card : Bool
  deriving Repr, DecidableEq

/-- A controlled card as the income phase sees it: name, whether it is a
Place of Power, its stored resources, and its income effect. -/
structure ICard where
  name : String
  isPlaceOfPower : Bool
  stored : Pool
  income : Option IncomeEffect
  deriving Repr, DecidableEq

/-- A player as the income phase sees them: controlled cards and pool. -/
structure IPlayer where
  cards : List ICard
  pool : Pool
  deriving Repr, DecidableEq

/-- The income-generation rule of `apply_income_and_advance`
(game_logic.py): fixed income grants every listed resource; choice income
grants the player's recorded choice when one is set and non-empty,
otherwise `count` of the first listed type.  NOTE: exactly as in the
source, neither `conditional` nor `add_to_card` is consulted. -/
def income_gain (income : IncomeEffect) (choice : Option (List (ResT × Nat))) : Pool :=
  match income.resources with
  | some r => r
  | none =>
    if income.count = 0 then Pool.zero
    else
      match income.types with
      | [] => Pool.zero
      | [t] => Pool.addType Pool.zero t income.count
      | t :: _ :: _ =>
        match choice with
        | some (e :: es) =>
          (e :: es).foldl (fun acc x => acc.addType x.1 x.2) Pool.zero
        | _ => Pool.addType Pool.zero t income.count

/-- The collection pass of `apply_income_and_advance`: for each named
card, the player's take-all choice (default `false`, forced to `false`
for a Place of Power under the auto-skip preference) moves the card's
whole store into the pool. -/
def apply_collection (pl : IPlayer) (collection : List (String × Bool))
    (autoSkip : Bool) : IPlayer :=
  pl.cards.foldl
    (fun acc cc =>
      if cc.name = "" then { acc with cards := acc.cards ++ [cc] }
      else
        let takeAll := (collection.lookup cc.name).getD false
        let takeAll := if cc.isPlaceOfPower && autoSkip then false else takeAll
        if takeAll then
          { cards := acc.cards ++ [{ cc with stored := Pool.zero }],
            pool := acc.pool.addAll cc.stored }
        else { acc with cards := acc.cards ++ [cc] })
    { cards := [], pool := pl.pool }

/-- The generation pass of `apply_income_and_advance`: every named card
with an income effect adds its `income_gain` to the player's pool. -/
def apply_income_gen (pl : IPlayer)
    (choices : List (String × List (ResT × Nat))) : IPlayer :=
  { pl with
    pool := pl.cards.foldl
      (fun acc cc =>
        if cc.name = "" then acc
        else
          match cc.income with
          | none => acc
          | some inc => acc.addAll (income_gain inc (choices.lookup cc.name)))
      pl.pool }

/-- `apply_income_and_advance` restricted to a single player: first the
collection choices move card-stored resources into the pool, then every
income rule executes. -/
def apply_income_player (pl : IPlayer) (collection : List (String × Bool))
    (choices : List (String × List (ResT × Nat))) (autoSkip : Bool) : IPlayer :=
  apply_income_gen (apply_collection pl collection autoSkip) choices

/-- A Vault-style card: 1 gold stored, conditional choice income of 2
among red/blue/green/black. -/
def vaultCard : ICard :=
  ⟨"Vault", false, ⟨0, 0, 0, 0, 1⟩,
   some ⟨none, 2, [.red, .blue, .green, .black], true, false⟩⟩

/-- C4 (code bug): the income engine never reads the `conditional` flag.
A player whose Vault-style card (conditional income) had its whole store
collected this round — so the card retained nothing — is still granted
the card's income (2 red by the first-type default): the final pool holds
the collected gold plus 2 red, and the card's store is empty. -/
theorem conditional_income_granted_after_collection :
    (vaultCard.income.map IncomeEffect.conditional = some true) ∧
    (apply_income_player ⟨[vaultCard], Pool.zero⟩ [("Vault", true)] [] true).cards.map
        ICard.stored = [Pool.zero] ∧
    (apply_income_player ⟨[vaultCard], Pool.zero⟩ [("Vault", true)] [] true).pool =
      ⟨2, 0, 0, 0, 1⟩ := by
  refine ⟨rfl, rfl, rfl⟩

/-- A player as victory evaluation sees them: the victory-point values of
the named controlled cards, the unplaced resource pool, and
first-player-token ownership. -/
structure VPlayer where
  cardPoints : List Nat
  pool : Pool
  token : Bool
  deriving Repr, DecidableEq

/-- `calculate_player_points` (game_logic.py): card points plus 1 for the
first-player token. -/
def calculate_player_points (p : VPlayer) : Nat :=
  p.cardPoints.sum + (if p.token then 1 else 0)

/-- `calculate_player_resources_value` (game_logic.py): gold counts
double, every other type counts 1. -/
def calculate_player_resources_value (p : VPlayer) : Nat :=
  p.pool.red + p.pool.blue + p.pool.green + p.pool.black + 2 * p.pool.gold

/-- The result dict of `check_victory`. -/
structure VictoryResult where
  game_over : Bool
  winner : Option Nat
  is_tie : Bool
  deriving Repr, DecidableEq

/-- Score of the player at index `i` (player ids are list indices). -/
def scoreAt (ps : List VPlayer) (i : Nat) : Nat :=
  (ps.map calculate_player_points).getD i 0

/-- Tie-break resource value of the player at index `i`. -/
def resValAt (ps : List VPlayer) (i : Nat) : Nat :=
  (ps.map calculate_player_resources_value).getD i 0

/-- The maximum score (`max(...)` in `check_victory`; the game always has
at least two players, so the 0 default of the fold is never the result). -/
def maxPoints (ps : List VPlayer) : Nat :=
  (ps.map calculate_player_points).foldr max 0

/-- The players holding the maximum score (`leaders`). -/
def leadersOf (ps : List VPlayer) : List Nat :=
  (List.range ps.length).filter (fun i => decide (scoreAt ps i = maxPoints ps))

/-- Among `ls`, the players holding the maximum tie-break resource value
(`resource_leaders`). -/
def resLeadersOf (ps : List VPlayer) (ls : List Nat) : List Nat :=
  ls.filter (fun i => decide (resValAt ps i = (ls.map (resValAt ps)).foldr max 0))

/-- `check_victory` (game_logic.py): no game over below 10 points; a
unique leader wins; ties at the top score are broken by resource value;
a residual tie is reported with no winner. -/
def check_victory (ps : List VPlayer) : VictoryResult :=
  if maxPoints ps < 10 then ⟨false, none, false⟩
  else if (leadersOf ps).length = 1 then ⟨true, (leadersOf ps).head?, false⟩
  else if (resLeadersOf ps (leadersOf ps)).length = 1 then
    ⟨true, (resLeadersOf ps (leadersOf ps)).head?, false⟩
  else ⟨true, none, true⟩

theorem le_foldr_max {a : Nat} {l : List Nat} (h : a ∈ l) :
    a ≤ l.foldr max 0 := by
  induction l with
  | nil => cases h
  | cons b t ih =>
    rcases List.mem_cons.1 h with rfl | h'
    · exact le_max_left _ _
    · exact le_trans (ih h') (le_max_right _ _)

theorem foldr_max_mem (l : List Nat) (h : l ≠ []) : l.foldr max 0 ∈ l := by
  induction l with
  | nil => exact absurd rfl h
  | cons b t ih =>
    cases t with
    | nil => simp
    | cons c u =>
      have ht : (c :: u).foldr max 0 ∈ c :: u := ih (by simp)
      rcases le_total ((c :: u).foldr max 0) b with hle | hle
      · have e : (b :: c :: u).foldr max 0 = b := max_eq_left hle
        rw [e]
        exact List.mem_cons_self _ _
      · have e : (b :: c :: u).foldr max 0 = (c :: u).foldr max 0 :=
          max_eq_right hle
        rw [e]
        exact List.mem_cons_of_mem _ ht

theorem mem_leaders_iff (ps : List VPlayer) (i : Nat) :
    i ∈ leadersOf ps ↔ i < ps.length ∧ scoreAt ps i = maxPoints ps := by
  simp [leadersOf, List.mem_filter, List.mem_range]

theorem mem_resLeaders_iff (ps : List VPlayer) (ls : List Nat) (i : Nat) :
    i ∈ resLeadersOf ps ls ↔
      i ∈ ls ∧ resValAt ps i = (ls.map (resValAt ps)).foldr max 0 := by
  simp [resLeadersOf, List.mem_filter]

theorem scoreAt_le_max (ps : List VPlayer) (i : Nat) (h : i < ps.length) :
    scoreAt ps i ≤ maxPoints ps := by
  have hlen : i < (ps.map calculate_player_points).length := by
    simpa using h
  have : (ps.map calculate_player_points).getD i 0 ∈
      ps.map calculate_player_points := by
    rw [List.getD_eq_getElem _ _ hlen]
    exact List.getElem_mem hlen
  exact le_foldr_max this

theorem foldr_max_le {b : Nat} (l : List Nat) (h : ∀ x ∈ l, x ≤ b) :
    l.foldr max 0 ≤ b := by
  induction l with
  | nil => simp
  | cons a t ih =>
    exact max_le (h a (List.mem_cons_self _ _))
      (ih (fun x hx => h x (List.mem_cons_of_mem _ hx)))

theorem two_mem_length_ne_one {α : Type} {l : List α} {i j : α}
    (hi : i ∈ l) (hj : j ∈ l) (hij : i ≠ j) : l.length ≠ 1 := by
  intro h1
  obtain ⟨a, rfl⟩ := List.length_eq_one.1 h1
  simp at hi hj
  exact hij (hi.trans hj.symm)

/-- C5: a player's score is the sum of victory points on their controlled
cards plus 1 for the first-player token; the game ends exactly when some
player's score reaches 10; any winner holds the maximum score, and among
players tied at that score the winner has the greatest tie-break resource
value (gold ×2); a game over with no winner is reported as a tie; and a
residual tie — two distinct players both at the maximum score ≥ 10 and
both at the top tie-break resource value among the score leaders — is
reported as game over with no winner and `is_tie`. -/
theorem check_victory_correct (ps : List VPlayer) :
    (∀ p : VPlayer, calculate_player_points p =
        p.cardPoints.sum + (if p.token then 1 else 0)) ∧
    ((check_victory ps).game_over = true ↔
      ∃ p ∈ ps, 10 ≤ calculate_player_points p) ∧
    (∀ w, (check_victory ps).winner = some w →
      w < ps.length ∧ scoreAt ps w = maxPoints ps ∧
      (∀ i, i < ps.length → scoreAt ps i ≤ scoreAt ps w) ∧
      (∀ i, i < ps.length → i ≠ w → scoreAt ps i = scoreAt ps w →
        resValAt ps i ≤ resValAt ps w)) ∧
    ((check_victory ps).game_over = true → (check_victory ps).winner = none →
      (check_victory ps).is_tie = true) ∧
    (∀ i j, i < ps.length → j < ps.length → i ≠ j →
      10 ≤ scoreAt ps i →
      scoreAt ps i = maxPoints ps → scoreAt ps j = maxPoints ps →
      (∀ k, k < ps.length → scoreAt ps k = maxPoints ps →
        resValAt ps k ≤ resValAt ps i) →
      resValAt ps j = resValAt ps i →
      check_victory ps = ⟨true, none, true⟩) := by
  refine ⟨fun p => rfl, ?_, ?_, ?_, ?_⟩
  · constructor
    · intro h
      have hmax : 10 ≤ maxPoints ps := by
        by_contra hlt
        push_neg at hlt
        unfold check_victory at h
        rw [if_pos hlt] at h
        simp at h
      have hne : ps.map calculate_player_points ≠ [] := by
        intro he
        unfold maxPoints at hmax
        rw [he] at hmax
        simp at hmax
      obtain ⟨p, hp, he⟩ := List.mem_map.1 (foldr_max_mem _ hne)
      refine ⟨p, hp, ?_⟩
      unfold maxPoints at hmax
      rw [← he] at hmax
      exact hmax
    · rintro ⟨p, hp, hge⟩
      have h10 : 10 ≤ maxPoints ps :=
        le_trans hge (le_foldr_max (List.mem_map_of_mem _ hp))
      unfold check_victory
      rw [if_neg (by omega)]
      split
      · rfl
      · split
        · rfl
        · rfl
  · intro w hw
    unfold check_victory at hw
    by_cases hlt : maxPoints ps < 10
    · rw [if_pos hlt] at hw
      simp at hw
    · rw [if_neg hlt] at hw
      by_cases h1 : (leadersOf ps).length = 1
      · rw [if_pos h1] at hw
        have hw' : (leadersOf ps).head? = some w := hw
        have hmem : w ∈ leadersOf ps := List.mem_of_mem_head? hw'
        obtain ⟨a, ha⟩ := List.length_eq_one.1 h1
        obtain ⟨hlen, hscore⟩ := (mem_leaders_iff ps w).1 hmem
        refine ⟨hlen, hscore, ?_, ?_⟩
        · intro i hi
          rw [hscore]
          exact scoreAt_le_max ps i hi
        · intro i hi hne hsc
          have hiL : i ∈ leadersOf ps :=
            (mem_leaders_iff ps i).2 ⟨hi, by rw [hsc, hscore]⟩
          rw [ha] at hiL hmem
          simp at hiL hmem
          exact absurd (hiL.trans hmem.symm) hne
      · rw [if_neg h1] at hw
        by_cases h2 : (resLeadersOf ps (leadersOf ps)).length = 1
        · rw [if_pos h2] at hw
          have hw' : (resLeadersOf ps (leadersOf ps)).head? = some w := hw
          have hmemR : w ∈ resLeadersOf ps (leadersOf ps) :=
            List.mem_of_mem_head? hw'
          obtain ⟨hmemL, hres⟩ := (mem_resLeaders_iff _ _ _).1 hmemR
          obtain ⟨hlen, hscore⟩ := (mem_leaders_iff ps w).1 hmemL
          refine ⟨hlen, hscore, ?_, ?_⟩
          · intro i hi
            rw [hscore]
            exact scoreAt_le_max ps i hi
          · intro i hi hne hsc
            have hiL : i ∈ leadersOf ps :=
              (mem_leaders_iff ps i).2 ⟨hi, by rw [hsc, hscore]⟩
            have hle : resValAt ps i ≤
                ((leadersOf ps).map (resValAt ps)).foldr max 0 :=
              le_foldr_max (List.mem_map_of_mem _ hiL)
            rw [hres]
            exact hle
        · rw [if_neg h2] at hw
          simp at hw
  · intro hgo hwn
    unfold check_victory at hwn ⊢
    by_cases hlt : maxPoints ps < 10
    · unfold check_victory at hgo
      rw [if_pos hlt] at hgo
      simp at hgo
    · rw [if_neg hlt] at hwn ⊢
      by_cases h1 : (leadersOf ps).length = 1
      · rw [if_pos h1] at hwn
        obtain ⟨a, ha⟩ := List.length_eq_one.1 h1
        rw [ha] at hwn
        simp at hwn
      · rw [if_neg h1] at hwn ⊢
        by_cases h2 : (resLeadersOf ps (leadersOf ps)).length = 1
        · rw [if_pos h2] at hwn
          obtain ⟨a, ha⟩ := List.length_eq_one.1 h2
          rw [ha] at hwn
          simp at hwn
        · rw [if_neg h2]
  · intro i j hi hj hij hs10 hsi hsj hmax hresj
    have hiL : i ∈ leadersOf ps := (mem_leaders_iff ps i).2 ⟨hi, hsi⟩
    have hjL : j ∈ leadersOf ps := (mem_leaders_iff ps j).2 ⟨hj, hsj⟩
    have hmaxP : 10 ≤ maxPoints ps := by
      rw [← hsi]
      exact hs10
    have hbound : ∀ x ∈ (leadersOf ps).map (resValAt ps),
        x ≤ resValAt ps i := by
      intro x hx
      obtain ⟨k, hk, rfl⟩ := List.mem_map.1 hx
      obtain ⟨hk1, hk2⟩ := (mem_leaders_iff ps k).1 hk
      exact hmax k hk1 hk2
    have hmr : resValAt ps i =
        ((leadersOf ps).map (resValAt ps)).foldr max 0 :=
      le_antisymm (le_foldr_max (List.mem_map_of_mem _ hiL))
        (foldr_max_le _ hbound)
    have hiR : i ∈ resLeadersOf ps (leadersOf ps) :=
      (mem_resLeaders_iff _ _ _).2 ⟨hiL, hmr⟩
    have hjR : j ∈ resLeadersOf ps (leadersOf ps) :=
      (mem_resLeaders_iff _ _ _).2 ⟨hjL, by rw [hresj]; exact hmr⟩
    have hL1 : (leadersOf ps).length ≠ 1 := two_mem_length_ne_one hiL hjL hij
    have hR1 : (resLeadersOf ps (leadersOf ps)).length ≠ 1 :=
      two_mem_length_ne_one hiR hjR hij
    unfold check_victory
    rw [if_neg (by omega), if_neg hL1, if_neg hR1]

/-- The spec scenario for C5: player 0 controls nine 1-point cards and
holds the first-player token (score 10); player 1 has nothing. -/
def demoPlayers : List VPlayer :=
  [⟨List.replicate 9 1, Pool.zero, true⟩, ⟨[], Pool.zero, false⟩]

/-- The spec's tie scenario: both players hold identical points (ten
1-point cards, score 10) and identical resources. -/
def tiedPlayers : List VPlayer :=
  [⟨List.replicate 10 1, Pool.zero, false⟩,
   ⟨List.replicate 10 1, Pool.zero, false⟩]

/-- Witness for C5: at the spec's scenario the game is over with player 0
the winner and every score at most theirs; at the dead-tie scenario the
result is game over, no winner, `is_tie`. -/
theorem check_victory_correct_witness :
    (check_victory demoPlayers).game_over = true ∧
      (check_victory demoPlayers).winner = some 0 ∧
      (0 : Nat) < demoPlayers.length ∧
      (∀ i, i < demoPlayers.length →
        scoreAt demoPlayers i ≤ scoreAt demoPlayers 0) ∧
      check_victory tiedPlayers = ⟨true, none, true⟩ := by
  have h := (check_victory_correct demoPlayers).2.2.1 0 (by decide)
  have htie := (check_victory_correct tiedPlayers).2.2.2.2 0 1
    (by decide) (by decide) (by decide) (by decide) (by decide) (by decide)
    (by decide) (by decide)
  exact ⟨by decide, by decide, h.1, h.2.2.1, htie⟩

/-- `GamePhase` as the pass action distinguishes it. -/
inductive GPhase
  | setup
  | playing
  | income
  | game_over
  deriving Repr, DecidableEq

/-- A player as the pass action sees them: first-player-token ownership
and face-up flag, the magic item name, and the card points and pool used
by the victory check at round end. -/
structure APlayer where
  token : Bool
  faceUp : Bool
  item : String
  cardPoints : List Nat
  pool : Pool
  deriving Repr, DecidableEq

/-- The victory-evaluation view of a player. -/
def APlayer.toV (p : APlayer) : VPlayer :=
  ⟨p.cardPoints, p.pool, p.token⟩

/-- Placeholder player (an out-of-range `getD`; Python would raise on an
out-of-range id instead, which never happens in a reachable state). -/
def defaultAPlayer : APlayer :=
  ⟨false, false, "", [], Pool.zero⟩

/-- The action-phase slice of `GameState`: players (ids are indices), the
shared magic-item pool, the phase, and the `ActionPhaseState` fields
(`current_player`, `passed`); the latter are meaningful only while the
phase is `playing` (`action_state` is `None` otherwise). -/
structure AGame where
  players : List APlayer
  itemsPool : List String
  phase : GPhase
  current : Nat
  passed : List Bool
  deriving Repr, DecidableEq

/-- Apply `f` to the element at index `i`, leaving the list unchanged
when `i` is out of range (Python mutates `players[i]` in place). -/
def updateAt {α : Type} (f : α → α) : Nat → List α → List α
  | _, [] => []
  | 0, x :: xs => f x :: xs
  | n + 1, x :: xs => x :: updateAt f n xs

/-- The first-player-token transfer step of `player_pass`
(game_logic.py): the first player holding the token face-up loses it and
the passing player gains it face-down; nothing happens when no face-up
holder exists. -/
def transfer_token (ps : List APlayer) (pid : Nat) : List APlayer :=
  match ps.findIdx? (fun p => p.token && p.faceUp) with
  | some j =>
    let ps1 := updateAt (fun p => { p with token := false }) j ps
    updateAt (fun p => { p with token := true, faceUp := false }) pid ps1
  | none => ps

/-- The search loop of `advance_to_next_player`: the first offset
1..n from `current` landing on a player who has not passed. -/
def find_next_player (passed : List Bool) (current n : Nat) : Option Nat :=
  (List.range n).findSome? (fun k =>
    let cand := (current + k + 1) % n
    if passed.getD cand false then none else some cand)

/-- The token flip of `start_income_phase`: the (unique) token holder's
token is turned face-up.  The untap pass and the fresh income substate
fall outside this slice. -/
def flip_first_face_up (ps : List APlayer) : List APlayer :=
  match ps.findIdx? (fun p => p.token) with
  | some j => updateAt (fun p => { p with faceUp := true }) j ps
  | none => ps

/-- `end_action_phase` (game_logic.py): victory check, then either game
over or the next income phase. -/
def end_action_phase (g : AGame) : AGame :=
  if (check_victory (g.players.map APlayer.toV)).game_over then
    { g with phase := GPhase.game_over }
  else
    { g with phase := GPhase.income, players := flip_first_face_up g.players }

/-- `advance_to_next_player` (game_logic.py). -/
def advance_to_next_player (g : AGame) : AGame :=
  match find_next_player g.passed g.current g.players.length with
  | some nxt => { g with current := nxt }
  | none => end_action_phase g

/-- The tail of `player_pass` after the token transfer: `g1` is the state
with the token already transferred, `newItem?` the looked-up magic item.
When the item was not found the function returns `False` with the
transferred state; otherwise the items are swapped, the player is marked
passed, and the turn advances. -/
def player_pass_swap (g1 : AGame) (pid : Nat) (newItem? : Option String) :
    Bool × AGame :=
  match newItem? with
  | none => (false, g1)
  | some newItem =>
    (true, advance_to_next_player
      { g1 with
        players := updateAt (fun p => { p with item := newItem }) pid g1.players,
        itemsPool :=
          (g1.itemsPool ++ [(g1.players.getD pid defaultAPlayer).item]).erase
            newItem,
        passed := g1.passed.set pid true })

/-- The new-magic-item lookup of `player_pass`: the named item in the
shared pool, or the first available item when no name is given. -/
def lookup_new_item (pool : List String) (newItemName : Option String) :
    Option String :=
  match newItemName with
  | some nm => pool.find? (fun m => m == nm)
  | none => pool.head?

/-- `player_pass` (game_logic.py).  The result pairs the returned
success flag with the post-call state; note that on the branch where the
named magic item is not found the function returns `False` *after* the
token transfer has already mutated the players. -/
def player_pass (g : AGame) (pid : Nat) (newItemName : Option String) :
    Bool × AGame :=
  if g.phase ≠ GPhase.playing then (false, g)
  else if g.current ≠ pid then (false, g)
  else if g.passed.getD pid false then (false, g)
  else if g.itemsPool.isEmpty then (false, g)
  else
    player_pass_swap { g with players := transfer_token g.players pid } pid
      (lookup_new_item g.itemsPool newItemName)

/-- The token-relevant fragment of `create_new_game` (game_logic.py):
`num_players` empty players, the randomly drawn `first` one holding the
face-up first-player token, phase `SETUP`; `items` stands for the
catalog's magic-item names. -/
def create_game_token_slice (n first : Nat) (items : List String) : AGame :=
  { players := updateAt (fun p => { p with token := true }) first
      ((List.range n).map (fun _ => ⟨false, true, "", [], Pool.zero⟩)),
    itemsPool := items,
    phase := GPhase.setup,
    current := 0,
    passed := [] }

/-- Number of players holding the first-player token. -/
def tokenCount (ps : List APlayer) : Nat :=
  ps.countP (fun p => p.token)

/-- A 2-player action-phase state: player 0 to move, player 1 holding the
face-up first-player token, one magic item in the pool. -/
def passBugGame : AGame :=
  { players := [⟨false, true, "Wand", [], Pool.zero⟩,
                ⟨true, true, "Orb", [], Pool.zero⟩],
    itemsPool := ["Elan"],
    phase := GPhase.playing,
    current := 0,
    passed := [false, false] }

/-- C3 (code bug): a pass that names a magic item absent from the pool
returns the failure signal, yet the first-player token has already been
transferred from player 1 to player 0 — the failed operation does not
leave the state as it was. -/
theorem failed_pass_moves_token :
    (player_pass passBugGame 0 (some "Nope")).1 = false ∧
      passBugGame.players.map APlayer.token = [false, true] ∧
      (player_pass passBugGame 0 (some "Nope")).2.players.map APlayer.token =
        [true, false] ∧
      (player_pass passBugGame 0 (some "Nope")).2.itemsPool = ["Elan"] := by
  refine ⟨rfl, rfl, rfl, rfl⟩

theorem updateAt_length {α : Type} (f : α → α) :
    ∀ (i : Nat) (l : List α), (updateAt f i l).length = l.length := by
  intro i l
  induction l generalizing i with
  | nil => cases i <;> rfl
  | cons a t ih =>
    cases i with
    | zero => rfl
    | succ n => simpa [updateAt] using ih n

theorem countP_updateAt {α : Type} (q : α → Bool) (f : α → α) :
    ∀ (l : List α) (i : Nat) (d : α), i < l.length →
      (updateAt f i l).countP q + (if q (l.getD i d) then 1 else 0) =
        l.countP q + (if q (f (l.getD i d)) then 1 else 0) := by
  intro l
  induction l with
  | nil => intro i d hi; simp at hi
  | cons a t ih =>
    intro i d hi
    cases i with
    | zero =>
      simp only [updateAt, List.countP_cons, List.getD_cons_zero]
      omega
    | succ n =>
      simp only [updateAt, List.countP_cons, List.getD_cons_succ]
      have ih' := ih n d (by simpa using Nat.lt_of_succ_lt_succ hi)
      omega

theorem countP_updateAt_invariant {α : Type} (q : α → Bool) (f : α → α)
    (hf : ∀ a, q (f a) = q a) :
    ∀ (i : Nat) (l : List α), (updateAt f i l).countP q = l.countP q := by
  intro i l
  induction l generalizing i with
  | nil => cases i <;> rfl
  | cons a t ih =>
    cases i with
    | zero => simp [updateAt, List.countP_cons, hf]
    | succ n => simp [updateAt, List.countP_cons, ih n]

theorem findIdx?_go_spec {α : Type} (q : α → Bool) :
    ∀ (l : List α) (s j : Nat), List.findIdx? q l s = some j →
      s ≤ j ∧ j - s < l.length ∧ ∀ d, q (l.getD (j - s) d) = true := by
  intro l
  induction l with
  | nil =>
    intro s j h
    simp [List.findIdx?] at h
  | cons a t ih =>
    intro s j h
    rw [List.findIdx?_cons] at h
    by_cases hqa : q a
    · rw [if_pos hqa] at h
      cases h
      refine ⟨le_refl _, by simp, fun d => ?_⟩
      simpa using hqa
    · rw [if_neg hqa] at h
      obtain ⟨h1, h2, h3⟩ := ih (s + 1) j h
      refine ⟨by omega, by simp; omega, fun d => ?_⟩
      have e : j - s = (j - (s + 1)) + 1 := by omega
      rw [e, List.getD_cons_succ]
      exact h3 d

theorem findIdx?_spec {α : Type} (q : α → Bool) (l : List α) (j : Nat)
    (h : l.findIdx? q = some j) :
    j < l.length ∧ ∀ d, q (l.getD j d) = true := by
  obtain ⟨-, h2, h3⟩ := findIdx?_go_spec q l 0 j h
  rw [Nat.sub_zero] at h2 h3
  exact ⟨h2, h3⟩

theorem getD_mem {α : Type} (l : List α) (i : Nat) (d : α) (h : i < l.length) :
    l.getD i d ∈ l := by
  rw [List.getD_eq_getElem _ _ h]
  exact List.getElem_mem h

theorem getD_updateAt_eq {α : Type} (f : α → α) :
    ∀ (l : List α) (i : Nat) (d : α), i < l.length →
      (updateAt f i l).getD i d = f (l.getD i d) := by
  intro l
  induction l with
  | nil => intro i d hi; simp at hi
  | cons a t ih =>
    intro i d hi
    cases i with
    | zero => rfl
    | succ n => exact ih n d (by simpa using Nat.lt_of_succ_lt_succ hi)

theorem getD_updateAt_ne {α : Type} (f : α → α) :
    ∀ (l : List α) (i k : Nat) (d : α), k ≠ i →
      (updateAt f i l).getD k d = l.getD k d := by
  intro l
  induction l with
  | nil => intro i k d _; cases i <;> rfl
  | cons a t ih =>
    intro i k d hk
    cases i with
    | zero =>
      cases k with
      | zero => exact absurd rfl hk
      | succ m => rfl
    | succ n =>
      cases k with
      | zero => rfl
      | succ m => exact ih n m d (fun e => hk (by rw [e]))

theorem getD_updateAt_map {α β : Type} (f : α → α) (proj : α → β)
    (hf : ∀ a, proj (f a) = proj a) :
    ∀ (l : List α) (i k : Nat) (d : α),
      proj ((updateAt f i l).getD k d) = proj (l.getD k d) := by
  intro l
  induction l with
  | nil => intro i k d; cases i <;> rfl
  | cons a t ih =>
    intro i k d
    cases i with
    | zero =>
      cases k with
      | zero => exact hf a
      | succ m => rfl
    | succ n =>
      cases k with
      | zero => rfl
      | succ m => exact ih n m d

/-- Token ownership at index `i`. -/
def tokenAt (ps : List APlayer) (i : Nat) : Bool :=
  (ps.getD i defaultAPlayer).token

theorem transfer_token_length (ps : List APlayer) (pid : Nat) :
    (transfer_token ps pid).length = ps.length := by
  unfold transfer_token
  cases ps.findIdx? (fun p => p.token && p.faceUp) with
  | none => rfl
  | some j => simp [updateAt_length]

theorem countP_set_token_false (ps : List APlayer) (j : Nat)
    (hj : j < ps.length)
    (hqj : (ps.getD j defaultAPlayer).token = true) :
    (updateAt (fun p => { p with token := false }) j ps).countP
        (fun p => p.token) + 1 =
      ps.countP (fun p => p.token) := by
  have s := countP_updateAt (fun p => p.token)
    (fun p => { p with token := false }) ps j defaultAPlayer hj
  simp only [hqj] at s
  simpa using s

theorem countP_set_token_only (ps : List APlayer) (j : Nat)
    (hj : j < ps.length)
    (hqj : (ps.getD j defaultAPlayer).token = false) :
    (updateAt (fun p => { p with token := true }) j ps).countP
        (fun p => p.token) =
      ps.countP (fun p => p.token) + 1 := by
  have s := countP_updateAt (fun p => p.token)
    (fun p => { p with token := true }) ps j defaultAPlayer hj
  simp only [hqj] at s
  simpa using s

theorem countP_set_token_true (ps : List APlayer) (j : Nat)
    (hj : j < ps.length)
    (hqj : (ps.getD j defaultAPlayer).token = false) :
    (updateAt (fun p => { p with token := true, faceUp := false }) j ps).countP
        (fun p => p.token) =
      ps.countP (fun p => p.token) + 1 := by
  have s := countP_updateAt (fun p => p.token)
    (fun p => { p with token := true, faceUp := false }) ps j defaultAPlayer hj
  simp only [hqj] at s
  simpa using s

theorem tokenCount_transfer (ps : List APlayer) (pid : Nat)
    (hpid : pid < ps.length) (h1 : tokenCount ps = 1) :
    tokenCount (transfer_token ps pid) = 1 := by
  unfold tokenCount at h1 ⊢
  unfold transfer_token
  cases hF : ps.findIdx? (fun p => p.token && p.faceUp) with
  | none => exact h1
  | some j =>
    obtain ⟨hj, hq⟩ := findIdx?_spec _ ps j hF
    have hqj : (ps.getD j defaultAPlayer).token = true := by
      have h' := hq defaultAPlayer
      simp only [Bool.and_eq_true] at h'
      exact h'.1
    have s1 := countP_set_token_false ps j hj hqj
    have hpid1 : pid <
        (updateAt (fun p => { p with token := false }) j ps).length := by
      rw [updateAt_length]; exact hpid
    have hfalse : (((updateAt (fun p => { p with token := false }) j
        ps).getD pid defaultAPlayer)).token = false := by
      have hall := List.countP_eq_zero.1
        (show (updateAt (fun p => { p with token := false }) j ps).countP
          (fun p => p.token) = 0 by omega)
      have hm := hall _ (getD_mem _ pid defaultAPlayer hpid1)
      simpa using hm
    have s2 := countP_set_token_true
      (updateAt (fun p => { p with token := false }) j ps) pid hpid1 hfalse
    show (updateAt (fun p => { p with token := true, faceUp := false }) pid
      (updateAt (fun p => { p with token := false }) j ps)).countP
      (fun p => p.token) = 1
    omega

theorem tokenCount_flip (ps : List APlayer) :
    tokenCount (flip_first_face_up ps) = tokenCount ps := by
  unfold tokenCount flip_first_face_up
  cases ps.findIdx? (fun p => p.token) with
  | none => rfl
  | some j =>
    exact countP_updateAt_invariant (fun p => p.token)
      (fun p => { p with faceUp := true }) (fun a => rfl) j ps

theorem flip_first_face_up_length (ps : List APlayer) :
    (flip_first_face_up ps).length = ps.length := by
  unfold flip_first_face_up
  cases ps.findIdx? (fun p => p.token) with
  | none => rfl
  | some j => exact updateAt_length _ j ps

theorem tokenCount_create (n first : Nat) (items : List String)
    (h0 : 0 < n) (hf : first < n) :
    tokenCount (create_game_token_slice n first items).players = 1 := by
  show (updateAt (fun p => { p with token := true }) first
      ((List.range n).map
        (fun _ => (⟨false, true, "", [], Pool.zero⟩ : APlayer)))).countP
      (fun p => p.token) = 1
  have hbase : ((List.range n).map
      (fun _ => (⟨false, true, "", [], Pool.zero⟩ : APlayer))).countP
      (fun p => p.token) = 0 := by
    apply List.countP_eq_zero.2
    intro a ha
    obtain ⟨i, _, rfl⟩ := List.mem_map.1 ha
    simp
  have hlenb : first < ((List.range n).map
      (fun _ => (⟨false, true, "", [], Pool.zero⟩ : APlayer))).length := by
    simpa using hf
  have hfalse : (((List.range n).map
      (fun _ => (⟨false, true, "", [], Pool.zero⟩ : APlayer))).getD first
        defaultAPlayer).token = false := by
    have hall := List.countP_eq_zero.1 hbase
    have hm := hall _ (getD_mem _ first defaultAPlayer hlenb)
    simpa using hm
  have s := countP_set_token_only
    ((List.range n).map (fun _ => (⟨false, true, "", [], Pool.zero⟩ : APlayer)))
    first hlenb hfalse
  omega

/-- Invariant of the action-phase slice: exactly one player holds the
first-player token, and the current-player index is in range. -/
def AInv (g : AGame) : Prop :=
  tokenCount g.players = 1 ∧ g.current < g.players.length

theorem find_next_player_lt (passed : List Bool) (current n nxt : Nat)
    (h : find_next_player passed current n = some nxt) : nxt < n := by
  unfold find_next_player at h
  obtain ⟨k, hk, hv⟩ := List.exists_of_findSome?_eq_some h
  have hn : 0 < n := by
    have := List.mem_range.1 hk
    omega
  have hv' : (if passed.getD ((current + k + 1) % n) false then none
      else some ((current + k + 1) % n)) = some nxt := hv
  split at hv'
  · cases hv'
  · cases hv'
    exact Nat.mod_lt _ hn

theorem advance_inv (g : AGame) (h1 : tokenCount g.players = 1)
    (h2 : g.current < g.players.length) :
    AInv (advance_to_next_player g) := by
  cases hF : find_next_player g.passed g.current g.players.length with
  | some nxt =>
    have e : advance_to_next_player g = { g with current := nxt } := by
      unfold advance_to_next_player
      rw [hF]
    rw [e]
    exact ⟨h1, find_next_player_lt _ _ _ _ hF⟩
  | none =>
    have e : advance_to_next_player g = end_action_phase g := by
      unfold advance_to_next_player
      rw [hF]
    rw [e]
    unfold end_action_phase
    split
    · exact ⟨h1, h2⟩
    · constructor
      · show tokenCount (flip_first_face_up g.players) = 1
        rw [tokenCount_flip]
        exact h1
      · show g.current < (flip_first_face_up g.players).length
        rw [flip_first_face_up_length]
        exact h2

theorem player_pass_swap_inv (g1 : AGame) (pid : Nat) (it : Option String)
    (h1 : tokenCount g1.players = 1) (h2 : g1.current < g1.players.length) :
    AInv (player_pass_swap g1 pid it).2 := by
  cases it with
  | none => exact ⟨h1, h2⟩
  | some newItem =>
    refine advance_inv _ ?_ ?_
    · show (updateAt (fun p => { p with item := newItem }) pid
        g1.players).countP (fun p => p.token) = 1
      rw [countP_updateAt_invariant (fun p => p.token)
        (fun p => { p with item := newItem }) (fun a => rfl) pid g1.players]
      exact h1
    · show g1.current <
        (updateAt (fun p => { p with item := newItem }) pid g1.players).length
      rw [updateAt_length]
      exact h2

theorem player_pass_inv (g : AGame) (pid : Nat) (itm : Option String)
    (h : AInv g) : AInv (player_pass g pid itm).2 := by
  obtain ⟨h1, h2⟩ := h
  by_cases c1 : g.phase ≠ GPhase.playing
  · unfold player_pass
    rw [if_pos c1]
    exact ⟨h1, h2⟩
  · by_cases c2 : g.current ≠ pid
    · unfold player_pass
      rw [if_neg c1, if_pos c2]
      exact ⟨h1, h2⟩
    · by_cases c3 : g.passed.getD pid false = true
      · unfold player_pass
        rw [if_neg c1, if_neg c2, if_pos c3]
        exact ⟨h1, h2⟩
      · by_cases c4 : g.itemsPool.isEmpty = true
        · unfold player_pass
          rw [if_neg c1, if_neg c2, if_neg c3, if_pos c4]
          exact ⟨h1, h2⟩
        · have hpid : pid < g.players.length := by
            have hcur : g.current = pid := not_ne_iff.1 c2
            rw [← hcur]
            exact h2
          have e : player_pass g pid itm =
              player_pass_swap
                { g with players := transfer_token g.players pid } pid
                (lookup_new_item g.itemsPool itm) := by
            unfold player_pass
            rw [if_neg c1, if_neg c2, if_neg c3, if_neg c4]
          rw [e]
          refine player_pass_swap_inv _ pid _ ?_ ?_
          · show tokenCount (transfer_token g.players pid) = 1
            exact tokenCount_transfer g.players pid hpid h1
          · show g.current < (transfer_token g.players pid).length
            rw [transfer_token_length]
            exact h2

theorem tokenAt_advance (g : AGame) (k : Nat) :
    tokenAt (advance_to_next_player g).players k = tokenAt g.players k := by
  cases hF : find_next_player g.passed g.current g.players.length with
  | some nxt =>
    have e : advance_to_next_player g = { g with current := nxt } := by
      unfold advance_to_next_player
      rw [hF]
    rw [e]
  | none =>
    have e : advance_to_next_player g = end_action_phase g := by
      unfold advance_to_next_player
      rw [hF]
    rw [e]
    unfold end_action_phase
    split
    · rfl
    · show tokenAt (flip_first_face_up g.players) k = tokenAt g.players k
      cases hJ : g.players.findIdx? (fun p => p.token) with
      | none =>
        have e2 : flip_first_face_up g.players = g.players := by
          unfold flip_first_face_up
          rw [hJ]
        rw [e2]
      | some j =>
        have e2 : flip_first_face_up g.players =
            updateAt (fun p => { p with faceUp := true }) j g.players := by
          unfold flip_first_face_up
          rw [hJ]
        rw [e2]
        unfold tokenAt
        exact getD_updateAt_map (fun p => { p with faceUp := true })
          APlayer.token (fun a => rfl) g.players j k defaultAPlayer

theorem tokenAt_swap_some (g1 : AGame) (pid k : Nat) (it : String) :
    tokenAt (player_pass_swap g1 pid (some it)).2.players k =
      tokenAt g1.players k := by
  have e2 : (player_pass_swap g1 pid (some it)).2 =
      advance_to_next_player
        { g1 with
          players := updateAt (fun p => { p with item := it }) pid g1.players,
          itemsPool :=
            (g1.itemsPool ++
              [(g1.players.getD pid defaultAPlayer).item]).erase it,
          passed := g1.passed.set pid true } := rfl
  rw [e2, tokenAt_advance]
  show tokenAt (updateAt (fun p => { p with item := it }) pid g1.players) k =
    tokenAt g1.players k
  unfold tokenAt
  exact getD_updateAt_map (fun p => { p with item := it })
    APlayer.token (fun a => rfl) g1.players pid k defaultAPlayer

theorem tokenAt_transfer_pid (ps : List APlayer) (pid j : Nat)
    (hF : ps.findIdx? (fun p => p.token && p.faceUp) = some j)
    (hpid : pid < ps.length) :
    tokenAt (transfer_token ps pid) pid = true := by
  have e : transfer_token ps pid =
      updateAt (fun p => { p with token := true, faceUp := false }) pid
        (updateAt (fun p => { p with token := false }) j ps) := by
    unfold transfer_token
    rw [hF]
  rw [e]
  unfold tokenAt
  rw [getD_updateAt_eq _ _ pid defaultAPlayer
    (by rw [updateAt_length]; exact hpid)]

theorem tokenAt_transfer_other (ps : List APlayer) (pid j : Nat)
    (hF : ps.findIdx? (fun p => p.token && p.faceUp) = some j)
    (hj : j < ps.length) (hne : j ≠ pid) :
    tokenAt (transfer_token ps pid) j = false := by
  have e : transfer_token ps pid =
      updateAt (fun p => { p with token := true, faceUp := false }) pid
        (updateAt (fun p => { p with token := false }) j ps) := by
    unfold transfer_token
    rw [hF]
  rw [e]
  unfold tokenAt
  rw [getD_updateAt_ne _ _ pid j defaultAPlayer hne]
  rw [getD_updateAt_eq _ _ j defaultAPlayer hj]

/-- C9: game creation puts the first-player token on exactly one player;
every pass call (the only engine operation that writes token ownership)
preserves the exactly-one-token invariant, so every state reached from
creation by any sequence of pass calls has exactly one holder; and a
successful pass that transfers the face-up token from another holder `j`
sets the passer's token and clears `j`'s in the same step. -/
theorem first_player_token_invariant :
    (∀ (n first : Nat) (items : List String), 0 < n → first < n →
      tokenCount (create_game_token_slice n first items).players = 1) ∧
    (∀ (g : AGame) (pid : Nat) (itm : Option String),
      AInv g → AInv (player_pass g pid itm).2) ∧
    (∀ (n first : Nat) (items : List String)
        (ops : List (Nat × Option String)), 0 < n → first < n →
      tokenCount ((ops.foldl (fun g op => (player_pass g op.1 op.2).2)
        (create_game_token_slice n first items)).players) = 1) ∧
    (∀ (g : AGame) (pid j : Nat) (itm : Option String),
      pid < g.players.length →
      g.players.findIdx? (fun p => p.token && p.faceUp) = some j →
      j ≠ pid →
      (player_pass g pid itm).1 = true →
      tokenAt (player_pass g pid itm).2.players pid = true ∧
        tokenAt (player_pass g pid itm).2.players j = false) := by
  have hfold : ∀ (ops : List (Nat × Option String)) (g : AGame), AInv g →
      AInv (ops.foldl (fun g op => (player_pass g op.1 op.2).2) g) := by
    intro ops
    induction ops with
    | nil => intro g hg; exact hg
    | cons op rest ih =>
      intro g hg
      exact ih _ (player_pass_inv g op.1 op.2 hg)
  refine ⟨fun n first items h0 hf => tokenCount_create n first items h0 hf,
    player_pass_inv, ?_, ?_⟩
  · intro n first items ops h0 hf
    have hlen : (create_game_token_slice n first items).players.length = n := by
      show (updateAt (fun p => { p with token := true }) first
        ((List.range n).map
          (fun _ => (⟨false, true, "", [], Pool.zero⟩ : APlayer)))).length = n
      rw [updateAt_length]
      simp
    have hinv : AInv (create_game_token_slice n first items) := by
      refine ⟨tokenCount_create n first items h0 hf, ?_⟩
      show 0 < (create_game_token_slice n first items).players.length
      rw [hlen]
      exact h0
    exact (hfold ops _ hinv).1
  · intro g pid j itm hpid hF hne hs
    by_cases c1 : g.phase ≠ GPhase.playing
    · exfalso
      unfold player_pass at hs
      rw [if_pos c1] at hs
      simp at hs
    · by_cases c2 : g.current ≠ pid
      · exfalso
        unfold player_pass at hs
        rw [if_neg c1, if_pos c2] at hs
        simp at hs
      · by_cases c3 : g.passed.getD pid false = true
        · exfalso
          unfold player_pass at hs
          rw [if_neg c1, if_neg c2, if_pos c3] at hs
          simp at hs
        · by_cases c4 : g.itemsPool.isEmpty = true
          · exfalso
            unfold player_pass at hs
            rw [if_neg c1, if_neg c2, if_neg c3, if_pos c4] at hs
            simp at hs
          · have e : player_pass g pid itm =
                player_pass_swap
                  { g with players := transfer_token g.players pid } pid
                  (lookup_new_item g.itemsPool itm) := by
              unfold player_pass
              rw [if_neg c1, if_neg c2, if_neg c3, if_neg c4]
            rw [e] at hs ⊢
            cases hN : lookup_new_item g.itemsPool itm with
            | none =>
              exfalso
              rw [hN] at hs
              simp [player_pass_swap] at hs
            | some it =>
              obtain ⟨hj, -⟩ := findIdx?_spec _ g.players j hF
              constructor
              · rw [tokenAt_swap_some]
                show tokenAt (transfer_token g.players pid) pid = true
                exact tokenAt_transfer_pid g.players pid j hF hpid
              · rw [tokenAt_swap_some]
                show tokenAt (transfer_token g.players pid) j = false
                exact tokenAt_transfer_other g.players pid j hF hj hne

/-- Witness for C9: a 2-player creation and a single pass call, with the
invariant hypotheses discharged concretely. -/
theorem first_player_token_invariant_witness :
    tokenCount (create_game_token_slice 2 0 ["Orb"]).players = 1 ∧
      tokenCount (([((0 : Nat), (none : Option String))].foldl
        (fun g op => (player_pass g op.1 op.2).2)
        (create_game_token_slice 2 0 ["Orb"])).players) = 1 :=
  ⟨first_player_token_invariant.1 2 0 ["Orb"] (by decide) (by decide),
   first_player_token_invariant.2.2.1 2 0 ["Orb"]
     [((0 : Nat), (none : Option String))] (by decide) (by decide)⟩

/-- The magic-item-selection slice of the game: player count, the
current selector (`draft.magic_item_selector`), whether each player holds
a real magic item (`magic_item.card.name != ""`), the shared pool, and
whether the phase is still `MAGIC_ITEM_SELECTION`. -/
structure MagicSel where
  n : Nat
  selector : Nat
  hasItem : List Bool
  pool : List String
  selecting : Bool

/-- The next selector: one step counter-clockwise
(Python `(selector - 1) % num_players` on ints). -/
def next_selector (n s : Nat) : Nat :=
  (s + n - 1) % n

/-- `reveal_mages_and_start_magic_items` (game_logic.py), selection part:
the selector starts at `(first_player_id - 1) % num_players` — the player
immediately counter-clockwise of the token holder. -/
def reveal_magic_item_start (n first : Nat) (pool : List String) : MagicSel :=
  { n := n,
    selector := (first + (n - 1)) % n,
    hasItem := List.replicate n false,
    pool := pool,
    selecting := true }

/-- `player_takes_magic_item` (game_logic.py): only in phase
`MAGIC_ITEM_SELECTION`, only by the current selector, only for an
available item; afterwards either everyone holds an item (selection ends,
`setup_starting_hands`) or the selector moves one step counter-clockwise. -/
def player_takes_magic_item (s : MagicSel) (pid : Nat) (item : String) :
    Bool × MagicSel :=
  if ¬s.selecting then (false, s)
  else if pid ≠ s.selector then (false, s)
  else if ¬(s.pool.contains item) then (false, s)
  else if (s.hasItem.set pid true).all (fun b => b) then
    (true,
      { s with
        hasItem := s.hasItem.set pid true,
        pool := s.pool.erase item,
        selecting := false })
  else
    (true,
      { s with
        hasItem := s.hasItem.set pid true,
        pool := s.pool.erase item,
        selector := next_selector s.n s.selector })

theorem next_selector_iterate (n first : Nat) (h0 : 0 < n) (hf : first < n) :
    ∀ k, k ≤ n - 1 →
      (next_selector n)^[k] ((first + (n - 1)) % n) =
        (first + (n - 1 - k)) % n := by
  intro k
  induction k with
  | zero => intro _; rfl
  | succ m ih =>
    intro hk
    rw [Function.iterate_succ_apply', ih (by omega)]
    unfold next_selector
    have e1 : (first + (n - 1 - m)) % n + n - 1 =
        (first + (n - 1 - m)) % n + (n - 1) := by omega
    rw [e1, Nat.mod_add_mod]
    have e2 : first + (n - 1 - m) + (n - 1) =
        first + (n - 1 - (m + 1)) + n := by omega
    rw [e2, Nat.add_mod_right]

/-- C8: magic-item selection proceeds in exact reverse play order — the
first selector is `(first − 1) mod n` (counter-clockwise of the
first-player-token holder), a call by anyone other than the current
selector fails with the state unchanged, each successful take (that does
not end the phase) moves the selector to `(selector − 1) mod n`, and
iterating that step puts the token holder last: after `n − 1` steps the
selector is `first` itself. -/
theorem magic_item_selection_order :
    (∀ (n first : Nat) (pool : List String), 0 < n → first < n →
      (reveal_magic_item_start n first pool).selector = (first + (n - 1)) % n) ∧
    (∀ (s : MagicSel) (pid : Nat) (item : String), pid ≠ s.selector →
      player_takes_magic_item s pid item = (false, s)) ∧
    (∀ (s : MagicSel) (pid : Nat) (item : String),
      (player_takes_magic_item s pid item).1 = true →
      (player_takes_magic_item s pid item).2.selecting = true →
      (player_takes_magic_item s pid item).2.selector =
        next_selector s.n s.selector) ∧
    (∀ (n first : Nat), 0 < n → first < n → ∀ k, k ≤ n - 1 →
      (next_selector n)^[k] ((first + (n - 1)) % n) =
        (first + (n - 1 - k)) % n) ∧
    (∀ (n first : Nat), 0 < n → first < n →
      (next_selector n)^[n - 1] ((first + (n - 1)) % n) = first) := by
  refine ⟨fun n first pool _ _ => rfl, ?_, ?_,
    fun n first h0 hf => next_selector_iterate n first h0 hf, ?_⟩
  · intro s pid item hne
    unfold player_takes_magic_item
    by_cases c1 : ¬s.selecting
    · rw [if_pos c1]
    · rw [if_neg c1, if_pos hne]
  · intro s pid item hs hsel
    unfold player_takes_magic_item at hs hsel ⊢
    by_cases c1 : ¬s.selecting
    · rw [if_pos c1] at hs
      simp at hs
    · rw [if_neg c1] at hs hsel ⊢
      by_cases c2 : pid ≠ s.selector
      · rw [if_pos c2] at hs
        simp at hs
      · rw [if_neg c2] at hs hsel ⊢
        by_cases c3 : ¬(s.pool.contains item)
        · rw [if_pos c3] at hs
          simp at hs
        · rw [if_neg c3] at hs hsel ⊢
          by_cases c4 : (s.hasItem.set pid true).all (fun b => b) = true
          · rw [if_pos c4] at hsel
            simp at hsel
          · rw [if_neg c4]
  · intro n first h0 hf
    rw [next_selector_iterate n first h0 hf (n - 1) (le_refl _)]
    have e : n - 1 - (n - 1) = 0 := by omega
    rw [e, Nat.add_zero, Nat.mod_eq_of_lt hf]

/-- Witness for C8 with three players and first-player index 1: the
initial selector is player 0, iterating the counter-clockwise step twice
lands on player 1 (the token holder, last), and a take by the wrong
player (2) fails unchanged. -/
theorem magic_item_selection_order_witness :
    (reveal_magic_item_start 3 1 ["A", "B", "C"]).selector = (1 + (3 - 1)) % 3 ∧
      (next_selector 3)^[3 - 1] ((1 + (3 - 1)) % 3) = 1 ∧
      player_takes_magic_item (reveal_magic_item_start 3 1 ["A", "B", "C"]) 2
          "A" =
        (false, reveal_magic_item_start 3 1 ["A", "B", "C"]) :=
  ⟨magic_item_selection_order.1 3 1 ["A", "B", "C"] (by decide) (by decide),
   magic_item_selection_order.2.2.2.2 3 1 (by decide) (by decide),
   magic_item_selection_order.2.1 _ 2 "A" (by decide)⟩

/-- The phases `player_picks_card` distinguishes. -/
inductive DPhase
  | drafting_round_1
  | drafting_round_2
  | other
  deriving Repr, DecidableEq

/-- Python dict assignment `d[k] = v` on an association list. -/
def dictSet {κ α : Type} [DecidableEq κ] : List (κ × α) → κ → α → List (κ × α)
  | [], k, v => [(k, v)]
  | (k', v') :: rest, k, v =>
    if k' = k then (k, v) :: rest else (k', v') :: dictSet rest k v

/-- The draft slice of `GameState`: phase and the `DraftState` dicts
keyed by player id (cards by name). -/
structure DGame where
  phase : DPhase
  cards_to_pick : List (Nat × List String)
  cards_to_pass : List (Nat × List String)
  drafted_cards : List (Nat × List String)
  deriving Repr, DecidableEq

/-- `player_picks_card` (game_logic.py).  Python dict indexing
(`draft.cards_to_pick[player_id]`, `draft.drafted_cards[player_id]`)
raises `KeyError` on an unknown player id, modelled as `.error ()`;
every other failure returns `False` with the state unchanged. -/
def player_picks_card (g : DGame) (pid : Nat) (card : String) :
    Except Unit (Bool × DGame) :=
  if g.phase ≠ DPhase.drafting_round_1 ∧ g.phase ≠ DPhase.drafting_round_2 then
    .ok (false, g)
  else
    match g.cards_to_pick.lookup pid with
    | none => .error ()
    | some cards =>
      if ¬(cards.contains card) then .ok (false, g)
      else
        match g.drafted_cards.lookup pid with
        | none => .error ()
        | some drafted =>
          .ok (true,
            { g with
              cards_to_pick := dictSet g.cards_to_pick pid [],
              cards_to_pass := dictSet g.cards_to_pass pid (cards.erase card),
              drafted_cards :=
                dictSet g.drafted_cards pid (drafted ++ [card]) })

/-- The income-collection slice of `GameState`: whether the phase is
`INCOME`, the `finalized` and `collection_choices` dicts of
`IncomePhaseState`, and each player's controlled-card names. -/
structure CollectSlice where
  phase_income : Bool
  finalized : List (Nat × Bool)
  collection_choices : List (Nat × List (String × Bool))
  player_cards : List (Nat × List String)
  deriving Repr, DecidableEq

/-- `set_collection_choice` (game_logic.py).
`income_state.finalized[player_id]` raises `KeyError` on an unknown id;
`get_player` returning `None` makes the `all_controlled_cards` call raise
`AttributeError`; both are `.error ()`.  A card name not on any
controlled card returns `False` with the state unchanged. -/
def set_collection_choice (s : CollectSlice) (pid : Nat) (card_name : String)
    (take_all : Bool) : Except Unit (Bool × CollectSlice) :=
  if ¬s.phase_income then .ok (false, s)
  else
    match s.finalized.lookup pid with
    | none => .error ()
    | some fin =>
      if fin then .ok (false, s)
      else
        match s.player_cards.lookup pid with
        | none => .error ()
        | some cards =>
          if cards.contains card_name then
            match s.collection_choices.lookup pid with
            | none => .error ()
            | some choices =>
              .ok (true,
                { s with
                  collection_choices := dictSet s.collection_choices pid
                    (dictSet choices card_name take_all) })
          else .ok (false, s)

/-- The player-count guard of `create_new_game` (game_logic.py): the one
operation allowed to fail by raising (`ValueError`). -/
def create_new_game_guard (n : Nat) : Except String Unit :=
  if n < 2 ∨ 4 < n then .error "Game supports 2-4 players" else .ok ()

/-- A 2-player round-1 draft state (dict keys 0 and 1). -/
def cexDraftGame : DGame :=
  { phase := DPhase.drafting_round_1,
    cards_to_pick := [(0, ["A"]), (1, ["B"])],
    cards_to_pass := [],
    drafted_cards := [(0, []), (1, [])] }

/-- Counterexample for C6: invoked with the unknown player id 99, both
cited mutating operations raise (Python `KeyError`) instead of returning
a failure signal. -/
theorem unknown_player_id_raises :
    player_picks_card cexDraftGame 99 "A" = .error () ∧
      set_collection_choice
        ⟨true, [(0, false)], [(0, [])], [(0, ["Vault"])]⟩ 99 "Vault" true =
        .error () := by
  refine ⟨rfl, rfl⟩

/-- C6 (amended): for a player id the per-player dicts know, the cited
mutating operations never raise; a wrong-phase call and a card absent
from the expected zone each return the failure signal `False` with the
state unchanged — for `player_picks_card` and `set_collection_choice`
alike — and game creation raises exactly when the player count is
outside 2–4; an unknown player id, however, raises. -/
theorem known_player_ops_return_signal :
    (∀ (g : DGame) (pid : Nat) (card : String),
      (g.cards_to_pick.lookup pid).isSome = true →
      (g.drafted_cards.lookup pid).isSome = true →
      ∃ r, player_picks_card g pid card = .ok r) ∧
    (∀ (g : DGame) (pid : Nat) (card : String),
      g.phase = DPhase.other → player_picks_card g pid card = .ok (false, g)) ∧
    (∀ (g : DGame) (pid : Nat) (card : String) (cards : List String),
      g.cards_to_pick.lookup pid = some cards →
      cards.contains card = false →
      player_picks_card g pid card = .ok (false, g)) ∧
    (∀ (s : CollectSlice) (pid : Nat) (nm : String) (t : Bool),
      (s.finalized.lookup pid).isSome = true →
      (s.player_cards.lookup pid).isSome = true →
      (s.collection_choices.lookup pid).isSome = true →
      ∃ r, set_collection_choice s pid nm t = .ok r) ∧
    (∀ (s : CollectSlice) (pid : Nat) (nm : String) (t : Bool),
      s.phase_income = false →
      set_collection_choice s pid nm t = .ok (false, s)) ∧
    (∀ (s : CollectSlice) (pid : Nat) (nm : String) (t : Bool)
        (cards : List String),
      s.phase_income = true →
      s.finalized.lookup pid = some false →
      s.player_cards.lookup pid = some cards →
      cards.contains nm = false →
      set_collection_choice s pid nm t = .ok (false, s)) ∧
    (∀ n : Nat, 2 ≤ n → n ≤ 4 → create_new_game_guard n = .ok ()) ∧
    (∀ n : Nat, n < 2 ∨ 4 < n →
      create_new_game_guard n = .error "Game supports 2-4 players") := by
  refine ⟨?_, ?_, ?_, ?_, ?_, ?_, ?_, ?_⟩
  · intro g pid card h1 h2
    by_cases c1 : g.phase ≠ DPhase.drafting_round_1 ∧
        g.phase ≠ DPhase.drafting_round_2
    · exact ⟨(false, g), by unfold player_picks_card; rw [if_pos c1]⟩
    · cases hL : g.cards_to_pick.lookup pid with
      | none =>
        rw [hL] at h1
        simp at h1
      | some cards =>
        by_cases c2 : ¬(cards.contains card)
        · refine ⟨(false, g), ?_⟩
          unfold player_picks_card
          simp only [if_neg c1, hL, if_pos c2]
        · cases hD : g.drafted_cards.lookup pid with
          | none =>
            rw [hD] at h2
            simp at h2
          | some drafted =>
            have e : player_picks_card g pid card = .ok (true,
                { g with
                  cards_to_pick := dictSet g.cards_to_pick pid [],
                  cards_to_pass :=
                    dictSet g.cards_to_pass pid (cards.erase card),
                  drafted_cards :=
                    dictSet g.drafted_cards pid (drafted ++ [card]) }) := by
              unfold player_picks_card
              simp only [if_neg c1, hL, if_neg c2, hD]
            exact ⟨_, e⟩
  · intro g pid card h
    unfold player_picks_card
    rw [if_pos (show g.phase ≠ DPhase.drafting_round_1 ∧
      g.phase ≠ DPhase.drafting_round_2 by rw [h]; exact ⟨by decide, by decide⟩)]
  · intro g pid card cards hL hc
    by_cases c1 : g.phase ≠ DPhase.drafting_round_1 ∧
        g.phase ≠ DPhase.drafting_round_2
    · unfold player_picks_card
      rw [if_pos c1]
    · unfold player_picks_card
      simp only [if_neg c1, hL,
        if_pos (show ¬(cards.contains card = true) by simp only [hc]; decide)]
  · intro s pid nm t h1 h2 h3
    by_cases c1 : ¬s.phase_income
    · exact ⟨(false, s), by unfold set_collection_choice; rw [if_pos c1]⟩
    · cases hF : s.finalized.lookup pid with
      | none =>
        rw [hF] at h1
        simp at h1
      | some fin =>
        by_cases c2 : fin = true
        · refine ⟨(false, s), ?_⟩
          unfold set_collection_choice
          simp only [if_neg c1, hF, if_pos c2]
        · cases hP : s.player_cards.lookup pid with
          | none =>
            rw [hP] at h2
            simp at h2
          | some cards =>
            by_cases c3 : cards.contains nm = true
            · cases hC : s.collection_choices.lookup pid with
              | none =>
                rw [hC] at h3
                simp at h3
              | some choices =>
                have e : set_collection_choice s pid nm t = .ok (true,
                    { s with
                      collection_choices := dictSet s.collection_choices pid
                        (dictSet choices nm t) }) := by
                  unfold set_collection_choice
                  simp only [if_neg c1, hF, if_neg c2, hP, if_pos c3, hC]
                exact ⟨_, e⟩
            · refine ⟨(false, s), ?_⟩
              unfold set_collection_choice
              simp only [if_neg c1, hF, if_neg c2, hP, if_neg c3]
  · intro s pid nm t h
    unfold set_collection_choice
    rw [if_pos (show ¬(s.phase_income = true) by simp [h])]
  · intro s pid nm t cards hp hf hpc hc
    unfold set_collection_choice
    simp only [if_neg (show ¬¬(s.phase_income = true) by simp [hp]), hf,
      if_neg (show ¬(false = true) by simp), hpc,
      if_neg (show ¬(cards.contains nm = true) by simp only [hc]; decide)]
  · intro n hn2 hn4
    unfold create_new_game_guard
    rw [if_neg (by omega)]
  · intro n hn
    unfold create_new_game_guard
    rw [if_pos hn]

/-- Witness for C6's amended statement at concrete states: a known
player's pick of a card they do not hold returns `False` with the state
unchanged, as do a wrong-phase collection call and a collection choice
for a card the player does not control; creation guards evaluate
concretely. -/
theorem known_player_ops_return_signal_witness :
    (∃ r, player_picks_card cexDraftGame 0 "Z" = .ok r) ∧
      player_picks_card cexDraftGame 0 "Z" = .ok (false, cexDraftGame) ∧
      (∃ r, set_collection_choice
        ⟨true, [(0, false)], [(0, [])], [(0, ["Vault"])]⟩ 0 "Nope" true =
          .ok r) ∧
      set_collection_choice
        ⟨false, [(0, false)], [(0, [])], [(0, ["Vault"])]⟩ 0 "Vault" true =
        .ok (false, ⟨false, [(0, false)], [(0, [])], [(0, ["Vault"])]⟩) ∧
      set_collection_choice
        ⟨true, [(0, false)], [(0, [])], [(0, ["Vault"])]⟩ 0 "Nope" true =
        .ok (false, ⟨true, [(0, false)], [(0, [])], [(0, ["Vault"])]⟩) ∧
      create_new_game_guard 3 = .ok () ∧
      create_new_game_guard 7 = .error "Game supports 2-4 players" :=
  ⟨known_player_ops_return_signal.1 cexDraftGame 0 "Z" (by decide) (by decide),
   known_player_ops_return_signal.2.2.1 cexDraftGame 0 "Z" ["A"]
     (by decide) (by decide),
   known_player_ops_return_signal.2.2.2.1
     ⟨true, [(0, false)], [(0, [])], [(0, ["Vault"])]⟩ 0 "Nope" true
     (by decide) (by decide) (by decide),
   known_player_ops_return_signal.2.2.2.2.1
     ⟨false, [(0, false)], [(0, [])], [(0, ["Vault"])]⟩ 0 "Vault" true rfl,
   known_player_ops_return_signal.2.2.2.2.2.1
     ⟨true, [(0, false)], [(0, [])], [(0, ["Vault"])]⟩ 0 "Nope" true
     ["Vault"] rfl rfl rfl (by decide),
   known_player_ops_return_signal.2.2.2.2.2.2.1 3 (by decide) (by decide),
   known_player_ops_return_signal.2.2.2.2.2.2.2 7 (by decide)⟩

/-- The drafting slice needed by `all_players_have_picked` and
`pass_cards`: player count, whether the phase is `DRAFTING_ROUND_1`
(`true`) or `DRAFTING_ROUND_2` (`false`), and the draft dicts as
functions over player index (`cards_to_pass` keeps `Option` because the
source uses `.get(source, [])` on it and key presence marks a pick). -/
structure DraftPass where
  num_players : Nat
  round1 : Bool
  cards_to_pick : Nat → List String
  cards_to_pass : Nat → Option (List String)
  drafted_cards : Nat → List String

/-- `all_players_have_picked` (game_logic.py): false for an empty dict,
else `len(set(drafted counts)) == 1` — every player's drafted-card count
equals the first player's. -/
def all_players_have_picked (g : DraftPass) : Bool :=
  match (List.range g.num_players).map (fun i => (g.drafted_cards i).length) with
  | [] => false
  | c :: rest => rest.all (fun x => x == c)

/-- A player has picked in the current sub-round exactly when
`cards_to_pass` has an entry for them: `player_picks_card` always sets
it and `pass_cards` clears the whole dict. -/
def has_picked_this_subround (g : DraftPass) (i : Nat) : Bool :=
  (g.cards_to_pass i).isSome

/-- `pass_cards` (game_logic.py): player `i` receives from
`(i − 1) mod n` in round 1 (clockwise passing) and from `(i + 1) mod n`
in round 2; `cards_to_pass` is then cleared. -/
def pass_cards (g : DraftPass) : DraftPass :=
  { g with
    cards_to_pick := fun i =>
      if i < g.num_players then
        (g.cards_to_pass
          (if g.round1 then (i + g.num_players - 1) % g.num_players
           else (i + 1) % g.num_players)).getD []
      else g.cards_to_pick i,
    cards_to_pass := fun _ => none }

/-- The initial round-1 sub-round for two players: both have drafted 0
cards (all counts equal), both still hold their 4-card batch, and
neither has picked this sub-round. -/
def cexDraftPass : DraftPass :=
  { num_players := 2,
    round1 := true,
    cards_to_pick := fun _ => ["A", "B", "C", "D"],
    cards_to_pass := fun _ => none,
    drafted_cards := fun _ => [] }

/-- Counterexample for C7: at the start of a sub-round all drafted-card
counts are equal, so `all_players_have_picked` already returns true even
though no player has picked a card in the current sub-round — the
claimed "if and only if" fails in the only-if direction. -/
theorem all_players_have_picked_not_iff :
    all_players_have_picked cexDraftPass = true ∧
      has_picked_this_subround cexDraftPass 0 = false ∧
      0 < cexDraftPass.num_players := by
  refine ⟨rfl, rfl, by decide⟩

theorem mod_succ_pred_self (n i : Nat) (hi : i < n) :
    ((i + 1) % n + n - 1) % n = i := by
  by_cases h : i + 1 < n
  · rw [Nat.mod_eq_of_lt h]
    have e : i + 1 + n - 1 = i + n := by omega
    rw [e, Nat.add_mod_right, Nat.mod_eq_of_lt hi]
  · have e1 : i + 1 = n := by omega
    rw [e1, Nat.mod_self]
    have e2 : 0 + n - 1 = n - 1 := by omega
    rw [e2, Nat.mod_eq_of_lt (show n - 1 < n by omega)]
    omega

theorem mod_pred_succ_self (n i : Nat) (hi : i < n) :
    ((i + n - 1) % n + 1) % n = i := by
  by_cases h : 0 < i
  · have e1 : i + n - 1 = (i - 1) + n := by omega
    rw [e1, Nat.add_mod_right,
      Nat.mod_eq_of_lt (show i - 1 < n by omega)]
    have e2 : i - 1 + 1 = i := by omega
    rw [e2, Nat.mod_eq_of_lt hi]
  · have e1 : i = 0 := by omega
    subst e1
    have e2 : 0 + n - 1 = n - 1 := by omega
    rw [e2, Nat.mod_eq_of_lt (show n - 1 < n by omega),
      Nat.sub_add_cancel (show 1 ≤ n by omega), Nat.mod_self]

/-- C7 (amended): `all_players_have_picked` holds if and only if every
player's drafted-card count equals player 0's — which is weaker than
"every player has picked this sub-round": it is also true at the start of
a sub-round.  The pass directions are as claimed: in round 1 player `i`'s
remainder goes to `(i + 1) mod n`, in round 2 to `(i − 1) mod n`. -/
theorem draft_predicate_and_pass_direction (g : DraftPass) :
    (all_players_have_picked g = true ↔
      0 < g.num_players ∧ ∀ i, i < g.num_players →
        (g.drafted_cards i).length = (g.drafted_cards 0).length) ∧
    (∀ i, i < g.num_players → g.round1 = true →
      (pass_cards g).cards_to_pick ((i + 1) % g.num_players) =
        (g.cards_to_pass i).getD []) ∧
    (∀ i, i < g.num_players → g.round1 = false →
      (pass_cards g).cards_to_pick ((i + g.num_players - 1) % g.num_players) =
        (g.cards_to_pass i).getD []) ∧
    (∀ i, has_picked_this_subround (pass_cards g) i = false) := by
  refine ⟨?_, ?_, ?_, fun i => rfl⟩
  · unfold all_players_have_picked
    cases hn : g.num_players with
    | zero =>
      simp
    | succ m =>
      rw [List.range_succ_eq_map, List.map_cons]
      constructor
      · intro h
        refine ⟨by omega, ?_⟩
        intro i hi
        have hall := List.all_eq_true.1 h
        cases i with
        | zero => rfl
        | succ i' =>
          have hmem : (g.drafted_cards (i' + 1)).length ∈
              (List.map Nat.succ (List.range m)).map
                (fun i => (g.drafted_cards i).length) := by
            rw [List.map_map]
            exact List.mem_map.2 ⟨i', List.mem_range.2 (by omega), rfl⟩
          have hb := hall _ hmem
          simpa using hb
      · rintro ⟨-, h⟩
        apply List.all_eq_true.2
        intro x hx
        rw [List.map_map] at hx
        obtain ⟨i', hi', rfl⟩ := List.mem_map.1 hx
        have hlt : Nat.succ i' < m + 1 := by
          have := List.mem_range.1 hi'
          omega
        have he := h (Nat.succ i') hlt
        simpa using he
  · intro i hi hr
    show (fun k =>
      if k < g.num_players then
        (g.cards_to_pass
          (if g.round1 then (k + g.num_players - 1) % g.num_players
           else (k + 1) % g.num_players)).getD []
      else g.cards_to_pick k) ((i + 1) % g.num_players) =
        (g.cards_to_pass i).getD []
    have hlt : (i + 1) % g.num_players < g.num_players :=
      Nat.mod_lt _ (by omega)
    simp only [hr, if_pos hlt]
    rw [mod_succ_pred_self g.num_players i hi]
    simp
  · intro i hi hr
    show (fun k =>
      if k < g.num_players then
        (g.cards_to_pass
          (if g.round1 then (k + g.num_players - 1) % g.num_players
           else (k + 1) % g.num_players)).getD []
      else g.cards_to_pick k) ((i + g.num_players - 1) % g.num_players) =
        (g.cards_to_pass i).getD []
    have hlt : (i + g.num_players - 1) % g.num_players < g.num_players :=
      Nat.mod_lt _ (by omega)
    simp only [hr, if_pos hlt]
    rw [mod_pred_succ_self g.num_players i hi]
    simp

/-- Witness for C7's amended statement on a concrete 2-player draft
state where player 0 has passed a remainder. -/
theorem draft_predicate_and_pass_direction_witness :
    (all_players_have_picked cexDraftPass = true ↔
      0 < cexDraftPass.num_players ∧ ∀ i, i < cexDraftPass.num_players →
        (cexDraftPass.drafted_cards i).length =
          (cexDraftPass.drafted_cards 0).length) ∧
      (pass_cards cexDraftPass).cards_to_pick ((0 + 1) % 2) =
        (cexDraftPass.cards_to_pass 0).getD [] :=
  ⟨(draft_predicate_and_pass_direction cexDraftPass).1,
   (draft_predicate_and_pass_direction cexDraftPass).2.1 0 (by decide) rfl⟩

end ResArcana
